import Mathlib

/-!
Verification of the goja VM core (vm.go) against its specification.

The definitions below are a shallow embedding of the instruction
implementations in vm.go. Machine integers are modelled as Int with explicit
wrapping where Go overflow matters; Go float64 values are modelled by their
IEEE-754 classification with an exact rational magnitude (rounding of results
to 53-bit precision is not modelled; none of the verified properties depends
on it); Go panics become explicit error results. External collaborators of
the VM (the object and property system, the string-to-number machinery, the
compiler) appear as parameters or as definitions marked as modelled from the
spec.
-/

deriving instance DecidableEq for Except

namespace GojaVM

/-- Model of a Go float64 by its IEEE-754 classification: NaN, signed
infinity, or a signed finite magnitude. The magnitude is an exact
nonnegative rational; neg is the sign bit, so fin true 0 is negative zero. -/
inductive GoFloat where
  | nan : GoFloat
  | inf (neg : Bool) : GoFloat
  | fin (neg : Bool) (mag : ℚ) : GoFloat
  deriving DecidableEq, Repr

namespace GoFloat

/-- Go math.IsNaN. -/
def isNaN : GoFloat → Bool
  | nan => true
  | _ => false

/-- Go math.IsInf with sign argument 0: either infinity. -/
def isInf : GoFloat → Bool
  | inf _ => true
  | _ => false

/-- The Go comparison f == 0, true for both signed zeros. -/
def eqZero : GoFloat → Bool
  | fin _ m => m == 0
  | _ => false

/-- Go math.Signbit. The modelled code paths never consult it on NaN. -/
def signbit : GoFloat → Bool
  | nan => false
  | inf s => s
  | fin s _ => s

/-- The canonical singleton _positiveInf. -/
def posInf : GoFloat := inf false

/-- The canonical singleton _negativeInf. -/
def negInf : GoFloat := inf true

/-- The canonical singleton _positiveZero. -/
def posZero : GoFloat := fin false 0

/-- The canonical singleton _negativeZero. -/
def negZero : GoFloat := fin true 0

/-- Conversion of a Go integer to float64, exact in this model. -/
def ofInt (i : Int) : GoFloat := fin (decide (i < 0)) ((i.natAbs : ℚ))

/-- IEEE-754 multiplication on the classification model (exact magnitude),
the model of the Go expression left * right on float64. -/
def fmul : GoFloat → GoFloat → GoFloat
  | nan, _ => nan
  | _, nan => nan
  | inf s, inf t => inf (xor s t)
  | inf s, fin t m => if m = 0 then nan else inf (xor s t)
  | fin s m, inf t => if m = 0 then nan else inf (xor s t)
  | fin s m, fin t n => fin (xor s t) (m * n)

/-- Signed rational reading of a finite float. -/
def finVal (s : Bool) (m : ℚ) : ℚ := if s then -m else m

/-- IEEE-754 strict less-than; false whenever an operand is NaN. The model of
the Go comparison nx < ny on float64. -/
def flt : GoFloat → GoFloat → Bool
  | nan, _ => false
  | _, nan => false
  | inf s, inf t => s && !t
  | inf s, fin _ _ => s
  | fin _ _, inf t => !t
  | fin s m, fin t n => decide (finVal s m < finVal t n)

end GoFloat

/-- Model of the runtime Value interface, restricted to the variants the
verified instructions inspect. Objects carry only a numeric identity; their
behaviour (property access, toPrimitive) belongs to the external object
system and is abstracted where needed. -/
inductive Value where
  | undef
  | vnull
  | vbool (b : Bool)
  | vInt (i : Int)
  | vInt64 (i : Int)
  | vFloat (f : GoFloat)
  | vStr (s : List Nat)
  | obj (id : Nat)
  | unresolved (name : String)
  deriving DecidableEq, Repr

/-- The constant maxInt = 1 shifted left by 53 from vm.go. -/
def maxSafeInt : Int := 2 ^ 53

/-- Translation of intToValue (vm.go lines 244 to 252): values within the
safe-integer range stay integers (the small-integer cache is the identity
here), larger magnitudes become floats. -/
def intToValue (i : Int) : Value :=
  if -maxSafeInt ≤ i ∧ i ≤ maxSafeInt then .vInt i else .vFloat (GoFloat.ofInt i)

/-- Translation of floatToValue (vm.go lines 267 to 281): the source returns
canonical singletons for NaN, the infinities and negative zero; in this model
every GoFloat is already in canonical form. -/
def floatToValue (f : GoFloat) : Value := .vFloat f

/-- The canonical negative zero value. -/
def negativeZero : Value := .vFloat GoFloat.negZero

/-- The canonical NaN value. -/
def nanValue : Value := .vFloat .nan

/-- The canonical positive infinity value. -/
def positiveInf : Value := .vFloat GoFloat.posInf

/-- The canonical negative infinity value. -/
def negativeInf : Value := .vFloat GoFloat.negInf

/-- Translation of floatToInt (vm.go lines 260 to 265): succeeds exactly for
finite integral floats within the safe range, rejecting negative zero and
the infinities. -/
def floatToInt : GoFloat → Option Int
  | .fin s m =>
      if (m ≠ 0 ∨ s = false) ∧ m.den = 1 ∧ m ≤ ((2 : ℚ) ^ 53) then
        some (if s then -m.num else m.num)
      else none
  | _ => none

/-- Model of Value.ToNumber for the operand shapes reachable in the verified
instructions. String conversion is performed by the external string
machinery, supplied as strToNum; conversion of objects (toPrimitive) is
likewise external and is not exercised by the verified claims. -/
def toNumber (strToNum : List Nat → GoFloat) : Value → Value
  | .vInt i => .vInt i
  | .vInt64 i => .vInt64 i
  | .vFloat f => .vFloat f
  | .vbool b => .vInt (if b then 1 else 0)
  | .undef => .vFloat .nan
  | .vnull => .vInt 0
  | .vStr s => .vFloat (strToNum s)
  | _ => .vFloat .nan

/-- Model of Value.ToFloat, with the same external-conversion caveats as
toNumber. -/
def toFloat (strToNum : List Nat → GoFloat) : Value → GoFloat
  | .vInt i => GoFloat.ofInt i
  | .vInt64 i => GoFloat.ofInt i
  | .vFloat f => f
  | .vbool b => GoFloat.ofInt (if b then 1 else 0)
  | .undef => .nan
  | .vnull => GoFloat.posZero
  | .vStr s => strToNum s
  | _ => .nan

/-- Translation of assertInt64 (vm.go lines 283 to 297). When ToNumber yields
a valueInt64 the source returns v.ToInt64 on the original value, which in the
modelled shapes is the valueInt64 itself. -/
def assertInt64 (strToNum : List Nat → GoFloat) (v : Value) : Option Int :=
  match toNumber strToNum v with
  | .vInt i => some i
  | .vInt64 _ =>
      match v with
      | .vInt64 i => some i
      | _ => none
  | .vFloat f => floatToInt f
  | _ => none

/-- Distinguishable message payloads of raised errors. -/
inductive ErrMsg where
  | maxCallStack
  | evalNotFunction
  | notDefined (name : String)
  | valueNotObject
  deriving DecidableEq, Repr

/-- Error kinds raised by the modelled VM paths, following the taxonomy of
section 7 of the spec. accessBeforeInit and assignToConst stand for the
sentinel errors errAccessBeforeInit and errAssignToConst, whose definitions
live outside vm.go; the taxonomy keeps them distinct from the
unresolved-reference kind. -/
inductive JSErr where
  | accessBeforeInit
  | assignToConst
  | typeError (m : ErrMsg)
  | referenceError (m : ErrMsg)
  | rangeError (m : ErrMsg)
  deriving DecidableEq, Repr

/-- Two-complement wrap of an integer into the int64 range, modelling Go
int64 overflow. -/
def wrap64 (i : Int) : Int := (i + 2 ^ 63) % 2 ^ 64 - 2 ^ 63

/-- Go int64 division: truncation toward zero, with the most-negative-value
anomaly (the minimal int64 divided by -1 wraps back to itself). -/
def goDiv64 (a b : Int) : Int := wrap64 (Int.tdiv a b)

/-- Translation of the mul instruction (vm.go lines 1126 to 1154), acting on
the two operand values; operand-stack and pc bookkeeping is elided. The
integer fast path first special-cases the products 0 * -1 and -1 * 0 to
negative zero, then verifies the wrapped product by the reverse-division
check and falls back to float multiplication when the check fails. -/
def mulExec (strToNum : List Nat → GoFloat) (left right : Value) : Value :=
  let fallback :=
    floatToValue (GoFloat.fmul (toFloat strToNum left) (toFloat strToNum right))
  match assertInt64 strToNum left with
  | some l =>
      match assertInt64 strToNum right with
      | some r =>
          if (l = 0 ∧ r = -1) ∨ (l = -1 ∧ r = 0) then negativeZero
          else
            let res := wrap64 (l * r)
            if l = 0 ∨ r = 0 ∨ goDiv64 res l = r then intToValue res
            else fallback
      | none => fallback
  | none => fallback

/-- IEEE-754 division on the classification model (exact magnitude), the
model of the generic Go expression left / right on float64 reached after the
special-case ladder of the div instruction. -/
def fdiv : GoFloat → GoFloat → GoFloat
  | .nan, _ => .nan
  | _, .nan => .nan
  | .inf _, .inf _ => .nan
  | .inf s, .fin t _ => .inf (xor s t)
  | .fin s _, .inf t => .fin (xor s t) 0
  | .fin s m, .fin t n =>
      if n = 0 then (if m = 0 then .nan else .inf (xor s t))
      else .fin (xor s t) (m / n)

/-- Translation of the special-case ladder of the div instruction (vm.go
lines 1164 to 1209): the full IEEE-754 table is evaluated before the generic
float division. -/
def divFloat (left right : GoFloat) : GoFloat :=
  if left.isNaN || right.isNaN then .nan
  else if left.isInf && right.isInf then .nan
  else if left.eqZero && right.eqZero then .nan
  else if left.isInf then
    (if left.signbit = right.signbit then GoFloat.posInf else GoFloat.negInf)
  else if right.isInf then
    (if left.signbit = right.signbit then GoFloat.posZero else GoFloat.negZero)
  else if right.eqZero then
    (if left.signbit = right.signbit then GoFloat.posInf else GoFloat.negInf)
  else fdiv left right

/-- Translation of the div instruction (vm.go lines 1160 to 1213): both
operands are converted with ToFloat, then the special-case ladder runs. -/
def divExec (strToNum : List Nat → GoFloat) (lv rv : Value) : Value :=
  floatToValue (divFloat (toFloat strToNum lv) (toFloat strToNum rv))

/-- Result values of cmp: valueTrue, valueFalse, or the undefined sentinel
marking an incomparable pair. -/
inductive CmpResult where
  | ctrue
  | cfalse
  | undef
  deriving DecidableEq, Repr

/-- Conversion of the boolean ret of cmp to its result value. -/
def CmpResult.ofBool (b : Bool) : CmpResult := if b then .ctrue else .cfalse

/-- Modelled from the spec: valueString.compareTo, implemented outside vm.go
by the string machinery; section 4.3 fixes it as a lexicographic comparison
over code units, transparent to the physical encoding. True when xs sorts
strictly before ys. -/
def strLt : List Nat → List Nat → Bool
  | [], [] => false
  | [], _ :: _ => true
  | _ :: _, [] => false
  | x :: xs, y :: ys => if x < y then true else if y < x then false else strLt xs ys

/-- Translation of cmp (vm.go lines 3545 to 3584): string pairs compare
lexicographically, same-width integer pairs compare directly, every other
pair is converted with ToFloat, where a NaN operand makes the pair
incomparable (the undefined result). -/
def cmp (strToNum : List Nat → GoFloat) (px py : Value) : CmpResult :=
  match px, py with
  | .vStr xs, .vStr ys => .ofBool (strLt xs ys)
  | _, _ =>
      match px, py with
      | .vInt xi, .vInt yi => .ofBool (decide (xi < yi))
      | .vInt64 xi, .vInt64 yi => .ofBool (decide (xi < yi))
      | _, _ =>
          let nx := toFloat strToNum px
          let ny := toFloat strToNum py
          if nx.isNaN || ny.isNaN then .undef
          else .ofBool (GoFloat.flt nx ny)

/-- Translation of the less-than instruction (vm.go lines 3590 to 3602).
Operands here are already primitive: toPrimitiveNumber is the identity on
non-object values, and object operands go through the external toPrimitive
before cmp runs. The undefined (incomparable) result is consumed as false. -/
def ltExec (strToNum : List Nat → GoFloat) (left right : Value) : Bool :=
  match cmp strToNum left right with
  | .undef => false
  | .ctrue => true
  | .cfalse => false

/-- Translation of the less-than-or-equal instruction (vm.go lines 3608 to
3621): cmp runs on the swapped operands and both the undefined result and a
true result map to false. -/
def lteExec (strToNum : List Nat → GoFloat) (left right : Value) : Bool :=
  match cmp strToNum right left with
  | .undef => false
  | .ctrue => false
  | .cfalse => true

/-- Translation of the greater-than instruction (vm.go lines 3627 to 3639). -/
def gtExec (strToNum : List Nat → GoFloat) (left right : Value) : Bool :=
  match cmp strToNum right left with
  | .undef => false
  | .ctrue => true
  | .cfalse => false

/-- Translation of the greater-than-or-equal instruction (vm.go lines 3645
to 3658). -/
def gteExec (strToNum : List Nat → GoFloat) (left right : Value) : Bool :=
  match cmp strToNum left right with
  | .undef => false
  | .ctrue => false
  | .cfalse => true

/-- Modelled from the spec: the slot-kind bit mask maskConst attached to
name-to-slot map entries. The masks are defined by the compiler outside
vm.go; the spec fixes the kinds var, let and const plus deletable and
strictness flags, and the concrete bit positions are chosen here as distinct
high bits above every slot index. -/
def maskConst : Nat := 2 ^ 31

/-- Modelled from the spec: the var-kind bit (see maskConst). -/
def maskVar : Nat := 2 ^ 30

/-- Modelled from the spec: the deletable-binding bit (see maskConst). -/
def maskDeletable : Nat := 2 ^ 29

/-- Modelled from the spec: the strict-const bit, sharing the deletable bit
position as the two flags apply to disjoint slot kinds. -/
def maskStrict : Nat := maskDeletable

/-- Modelled from the spec: the union of all kind bits, cleared to recover a
slot index. -/
def maskTyp : Nat := Nat.lor (Nat.lor maskConst maskVar) maskDeletable

/-- The Go uint32 operation a AND NOT b. -/
def andNot32 (a b : Nat) : Nat := Nat.land a (Nat.xor b (2 ^ 32 - 1))

/-- One lexical scope record (stash). The name map is an association list; a
slot value of none is the nil sentinel of an uninitialized lexical binding.
An object-backed stash holds the object identity and delegates lookups to
the external property system. The outer link and the extra-args slice play
no part in the verified operations and are elided. -/
structure Stash where
  values : List (Option Value)
  names : List (String × Nat)
  obj : Option Nat
  deriving DecidableEq, Repr

/-- Lookup in the association-list model of the Go name map. -/
def lookupName : List (String × Nat) → String → Option Nat
  | [], _ => none
  | (k, v) :: rest, n => if k = n then some v else lookupName rest n

/-- Translation of stash.getByName (vm.go lines 369 to 388). The
object-backed branch delegates to the external property system, abstracted
as objLookup (stashObjHas followed by getStr, nil-safe). Result: ok none
when the name is absent, ok (some v) when found; a nil slot of a lexical
(non-var) binding raises errAccessBeforeInit while a nil var slot reads as
undefined. -/
def Stash.getByName (objLookup : Nat → String → Option Value) (s : Stash)
    (name : String) : Except JSErr (Option Value) :=
  match s.obj with
  | some o => .ok (objLookup o name)
  | none =>
      match lookupName s.names name with
      | some idx =>
          match s.values.getD (andNot32 idx maskTyp) none with
          | none =>
              if Nat.land idx maskVar = 0 then .error .accessBeforeInit
              else .ok (some .undef)
          | some v => .ok (some v)
      | none => .ok none

/-- The reference variants stash.getRefByName produces (vm.go lines 390 to
432), each carrying the cleared slot index into the values array. -/
inductive RefVariant where
  | objRef (oid : Nat) (strict : Bool)
  | stashRef (idx : Nat)
  | stashRefLex (idx : Nat)
  | stashRefConst (idx : Nat) (strictConst : Bool)
  deriving DecidableEq, Repr

/-- Translation of stash.getRefByName (vm.go lines 390 to 432). objHas
abstracts the external stashObjHas membership test. -/
def Stash.getRefByName (objHas : Nat → String → Bool) (s : Stash)
    (name : String) (strict : Bool) : Option RefVariant :=
  match s.obj with
  | some o => if objHas o name then some (.objRef o strict) else none
  | none =>
      match lookupName s.names name with
      | some idx =>
          if Nat.land idx maskVar = 0 then
            if Nat.land idx maskConst = 0 then
              some (.stashRefLex (andNot32 idx maskTyp))
            else
              some (.stashRefConst (andNot32 idx maskTyp)
                (strict || decide (Nat.land idx maskStrict ≠ 0)))
          else some (.stashRef (andNot32 idx maskTyp))
      | none => none

/-- Translation of stashRef.get (vm.go lines 98 to 100): nilSafe turns a nil
var slot into undefined. -/
def stashRefGet (vals : List (Option Value)) (idx : Nat) : Value :=
  match vals.getD idx none with
  | none => .undef
  | some v => v

/-- Translation of stashRefLex.get (vm.go lines 118 to 124): a nil slot
raises errAccessBeforeInit. -/
def stashRefLexGet (vals : List (Option Value)) (idx : Nat) : Except JSErr Value :=
  match vals.getD idx none with
  | none => .error .accessBeforeInit
  | some v => .ok v

/-- Translation of stashRefLex.set (vm.go lines 126 to 132): a nil slot
raises errAccessBeforeInit, otherwise the slot is overwritten. -/
def stashRefLexSet (vals : List (Option Value)) (idx : Nat) (v : Value) :
    Except JSErr (List (Option Value)) :=
  match vals.getD idx none with
  | none => .error .accessBeforeInit
  | some _ => .ok (vals.set idx (some v))

/-- Translation of stashRefConst.set (vm.go lines 143 to 147): raises
errAssignToConst when the strict flag is set and silently does nothing
otherwise; the slot content is never consulted. -/
def stashRefConstSet (strictConst : Bool) (vals : List (Option Value))
    (idx : Nat) (v : Value) : Except JSErr (List (Option Value)) :=
  if strictConst then .error .assignToConst else .ok vals

/-- Translation of stash.createBinding (vm.go lines 434 to 446): a fresh var
slot (initial value undefined) is appended only when the name is absent; the
nil-map initialization is the identity in the list model. -/
def Stash.createBinding (s : Stash) (name : String) (deletable : Bool) : Stash :=
  match lookupName s.names name with
  | some _ => s
  | none =>
      let idx := Nat.lor (Nat.lor s.names.length maskVar)
        (if deletable then maskDeletable else 0)
      { s with names := s.names ++ [(name, idx)], values := s.values ++ [some .undef] }

/-- Translation of stash.createLexBinding (vm.go lines 448 to 460): a fresh
lexical slot starting at the nil uninitialized sentinel is appended only
when the name is absent. -/
def Stash.createLexBinding (s : Stash) (name : String) (isConst : Bool) : Stash :=
  match lookupName s.names name with
  | some _ => s
  | none =>
      let idx := Nat.lor s.names.length
        (if isConst then Nat.lor maskConst maskStrict else 0)
      { s with names := s.names ++ [(name, idx)], values := s.values ++ [none] }

/-- Program metadata consulted by frame save: the function name. -/
structure Prg where
  funcName : String
  deriving DecidableEq, Repr

/-- One saved call frame (vmContext), with context and lock fields elided
and the stash identified by a numeric id. -/
structure Ctx where
  prg : Option Prg
  funcName : String
  stashId : Nat
  newTarget : Option Value
  result : Option Value
  pc : Int
  sb : Int
  args : Nat
  deriving DecidableEq, Repr

/-- The register file and frame stack of the VM as touched by saveCtx and
pushCtx. -/
structure VmRegs where
  prg : Option Prg
  funcName : String
  stashId : Nat
  newTarget : Option Value
  result : Option Value
  pc : Int
  sb : Int
  args : Nat
  callStack : List Ctx
  maxCallStackSize : Int
  deriving DecidableEq, Repr

/-- Translation of vm.saveCtx (vm.go lines 709 to 718); the funcName field of
a fresh context starts at the Go zero value, the empty string. -/
def saveCtx (vm : VmRegs) : Ctx :=
  let ctx : Ctx :=
    ⟨vm.prg, "", vm.stashId, vm.newTarget, vm.result, vm.pc, vm.sb, vm.args⟩
  if vm.funcName ≠ "" then { ctx with funcName := vm.funcName }
  else
    match vm.prg with
    | some p => if p.funcName ≠ "" then { ctx with funcName := p.funcName } else ctx
    | none => ctx

/-- Translation of vm.pushCtx (vm.go lines 720 to 727). The limit check runs
first; on failure the raised range error leaves every register and the frame
array untouched (the returned state is the input state). On success exactly
one frame holding the saved context is appended. -/
def pushCtx (vm : VmRegs) : VmRegs × Option JSErr :=
  if vm.maxCallStackSize ≠ 0 ∧
      (vm.callStack.length : Int) + 1 ≥ vm.maxCallStackSize then
    (vm, some (.rangeError .maxCallStack))
  else
    ({ vm with callStack := vm.callStack ++ [saveCtx vm] }, none)

/-- The operand-stack fragment callEval works on, plus the stack base. -/
structure EvalState where
  stack : List Value
  sp : Nat
  sb : Int
  deriving DecidableEq, Repr

/-- Translation of vm.toCallee (vm.go lines 750 to 763): an object passes
through, a valueUnresolved raises the unresolved-reference error, every
other value raises a type error. (The memberUnresolved variant is absent
from the Value model.) -/
def toCallee (v : Value) : Except JSErr Nat :=
  match v with
  | .obj id => .ok id
  | .unresolved name => .error (.referenceError (.notDefined name))
  | _ => .error (.typeError .valueNotObject)

/-- The callee-resolution step that opens the ordinary call instruction
(vm.go lines 2833 to 2835). For a callee with no object form this step alone
determines the outcome of ordinary dispatch, because toCallee raises before
any further work. -/
def callExecCalleeStep (st : EvalState) (n : Nat) : Except JSErr Nat :=
  toCallee (st.stack.getD (st.sp - n - 1) .undef)

/-- Translation of vm.callEval (vm.go lines 2712 to 2741). External pieces
are parameters: evalObjId is the object identity of the built-in eval
binding (vm.r.global.Eval); globalObj is vm.r.globalObject; evalFn is
vm.r.eval applied to (source, direct, strict, this) and, invoked with direct
set to true, compiles and runs the source in the caller current scope per
the spec; callDispatch is the ordinary call instruction the final branch
falls back to. The guard commented REALMC-5102 raises a type error whenever
the callee has no object form, before the identity test. -/
def callEvalM (evalObjId : Nat) (globalObj : Value)
    (evalFn : List Nat → Bool → Bool → Value → Value)
    (callDispatch : EvalState → Nat → Except JSErr EvalState)
    (st : EvalState) (n : Nat) (strict : Bool) : Except JSErr EvalState :=
  match st.stack.getD (st.sp - n - 1) .undef with
  | .obj id =>
      if id = evalObjId then
        if n > 0 then
          let srcVal := st.stack.getD (st.sp - n) .undef
          match srcVal with
          | .vStr src =>
              let thisVal :=
                if st.sb ≥ 0 then st.stack.getD st.sb.toNat .undef else globalObj
              .ok { st with
                stack := st.stack.set (st.sp - n - 2) (evalFn src true strict thisVal),
                sp := st.sp - (n + 1) }
          | _ =>
              .ok { st with
                stack := st.stack.set (st.sp - n - 2) srcVal,
                sp := st.sp - (n + 1) }
        else
          .ok { st with
            stack := st.stack.set (st.sp - n - 2) .undef,
            sp := st.sp - (n + 1) }
      else callDispatch st n
  | _ => .error (.typeError .evalNotFunction)

/-- Shape of an object as seen by the construction instruction: an optional
registered constructor behaviour (assertConstructor) and an optional
native-function form. Modelled from the spec: both behaviours live in the
external object system outside vm.go; construction selects the registered
constructor when present and otherwise falls back to the native form. -/
structure ObjShape where
  ctor : Option (List Value → Value)
  nativeFn : Option (List Value → Value → Value)

/-- The stack fragment the construction instruction works on. -/
structure NewState where
  stack : List Value
  sp : Nat
  args : Nat
  deriving DecidableEq, Repr

/-- The slice stack from lo to hi. -/
def extractArgs (stack : List Value) (lo hi : Nat) : List Value :=
  (stack.drop lo).take (hi - lo)

/-- Translation of the new instruction (vm.go lines 3815 to 3833).
toObjectOf models the external vm.r.toObject, failing only on values with no
object form. The two dispatch branches have no third fallback: when the
callee object has neither a registered constructor nor a native-function
form, the instruction completes silently and the callee itself is left in
the result slot. The native branch passes the current frame argument window
(from sp minus args to sp) exactly as the source does. -/
def newExec (toObjectOf : Value → Except JSErr Nat) (shapeOf : Nat → ObjShape)
    (st : NewState) (n : Nat) : Except JSErr NewState :=
  let sp := st.sp - n
  let objv := st.stack.getD (sp - 1) .undef
  match toObjectOf objv with
  | .error e => .error e
  | .ok id =>
      match (shapeOf id).ctor with
      | some c =>
          .ok { st with
            stack := st.stack.set (sp - 1) (c (extractArgs st.stack sp st.sp)),
            sp := sp }
      | none =>
          match (shapeOf id).nativeFn with
          | some f =>
              .ok { st with
                stack := st.stack.set (sp - 1)
                  (f (extractArgs st.stack (st.sp - st.args) st.sp) objv),
                sp := sp }
          | none => .ok { st with sp := sp }

/-- Exception identity; the payload content is irrelevant to the verified
control flow. -/
abbrev ExcId := Nat

/-- Outcome of one vm.runTry call over a code region: the region halted
normally with the counter at pc; a script-level throw was recovered and
returned as an Exception, with the counter restored to the saved entry; or
an uncatchable condition passed through the recover and keeps unwinding. -/
inductive TryOutcome where
  | completed (pc : Int)
  | exception (e : ExcId)
  | uncatchable (e : ExcId)
  deriving DecidableEq, Repr

/-- Outcome of a plain vm.run call, used for the finally region which runs
without a recover of its own: it halts with the counter at pc, or a raise
propagates out of try.exec entirely. -/
inductive RunOutcome where
  | halted (pc : Int)
  | raised (e : ExcId)
  deriving DecidableEq, Repr

/-- Behaviour of the three code regions a try instruction can run,
abstracted as outcomes since the bodies are arbitrary bytecode; retFinallyAt
tells whether the instruction at a pc is the retFinally end marker. -/
structure TryPhases where
  tryBody : TryOutcome
  catchBody : TryOutcome
  finallyBody : RunOutcome
  retFinallyAt : Int → Bool

/-- What a try instruction did: how many times the finally region was
entered, and either a normal return carrying the final counter or a raise
escaping try.exec. -/
structure TryResult where
  finallyEntered : Nat
  outcome : Except ExcId Int
  deriving DecidableEq, Repr

/-- Model of one vm.runTry call starting at entry: yields the pending
exception (when a script throw was recovered, with the counter restored to
entry by the deferred restore in vm.try) and the resulting counter, or
propagates an uncatchable raise. -/
def runTryAt (entry : Int) (out : TryOutcome) : Except ExcId (Option ExcId × Int) :=
  match out with
  | .completed pc => .ok (none, pc)
  | .exception e => .ok (some e, entry)
  | .uncatchable e => .error e

/-- Translation of try.exec (vm.go lines 3757 to 3789), with o the counter
of the try instruction. The operand-stack push of the caught value is
elided; the control flow follows the source line by line: run the try body
under runTry; on a recovered exception with a configured catch offset run
the catch body under runTry; with a configured finally offset always run the
finally body once with plain run, and when the counter afterwards does not
sit on retFinally (an early control transfer out of finally) drop any
pending exception; finally re-raise a still-pending exception. -/
def tryExec (catchOffset finallyOffset : Int) (o : Int) (ph : TryPhases) : TryResult :=
  match runTryAt (o + 1) ph.tryBody with
  | .error e => ⟨0, .error e⟩
  | .ok (ex0, pc0) =>
      match (if ex0.isSome ∧ catchOffset > 0 then
               runTryAt (o + catchOffset) ph.catchBody
             else .ok (ex0, pc0)) with
      | .error e => ⟨0, .error e⟩
      | .ok (ex1, pc1) =>
          if finallyOffset > 0 then
            match ph.finallyBody with
            | .raised e => ⟨1, .error e⟩
            | .halted pf =>
                if ph.retFinallyAt pf then
                  match ex1 with
                  | some e => ⟨1, .error e⟩
                  | none => ⟨1, .ok pc1⟩
                else ⟨1, .ok pf⟩
          else
            match ex1 with
            | some e => ⟨0, .error e⟩
            | none => ⟨0, .ok pc1⟩

/-- Translation of the iterator-stack restore in vm.try (vm.go lines 611 to
621), run when an abrupt completion, including an exception, unwinds the
region: every open iterator in the tail above the snapshot depth has its
close (returnIter) attempted, each wrapped in a nested try so a failing
close cannot stop the cleanup, and the stack is truncated to the snapshot.
closeResult gives the outcome of closing each record (none is a clean
close); the first component lists every attempt with its swallowed
outcome. -/
def restoreIterStack (closeResult : Nat → Option ExcId)
    (iterStack : List (Option Nat)) (iterLen : Nat) :
    List (Nat × Option ExcId) × List (Option Nat) :=
  ((iterStack.drop iterLen).foldl (fun acc it =>
      match it with
      | some id => acc ++ [(id, closeResult id)]
      | none => acc) [],
   iterStack.take iterLen)

/-- Translation of the enumPopClose instruction (vm.go lines 4040 to 4048),
the break path out of a for-of loop: the top iterator item is removed from
the stack first and its close invoked once afterwards; a raise from the
close propagates (the third component). -/
def enumPopClose (closeResult : Nat → Option ExcId)
    (iterStack : List (Option Nat)) :
    List (Nat × Option ExcId) × List (Option Nat) × Option ExcId :=
  match iterStack.getD (iterStack.length - 1) none with
  | some id =>
      ([(id, closeResult id)], iterStack.take (iterStack.length - 1), closeResult id)
  | none => ([], iterStack.take (iterStack.length - 1), none)

/-- Accumulation law for the close-attempt fold of restoreIterStack. -/
theorem closeFold_eq (closeResult : Nat → Option ExcId) :
    ∀ (tail : List (Option Nat)) (acc : List (Nat × Option ExcId)),
      tail.foldl (fun acc it =>
          match it with
          | some id => acc ++ [(id, closeResult id)]
          | none => acc) acc
        = acc ++ tail.filterMap (fun it => it.map (fun id => (id, closeResult id)))
  | [], acc => by simp
  | none :: rest, acc => by
      simpa using closeFold_eq closeResult rest acc
  | some id :: rest, acc => by
      simp [closeFold_eq closeResult rest (acc ++ [(id, closeResult id)])]

/-- Projection of a close-attempt list to the closed record identities. -/
theorem closeFold_fst (closeResult : Nat → Option ExcId) :
    ∀ (l : List (Option Nat)),
      (l.filterMap (fun it => it.map (fun id => (id, closeResult id)))).map Prod.fst
        = l.filterMap (fun it => it)
  | [] => rfl
  | none :: rest => by simp [closeFold_fst closeResult rest]
  | some id :: rest => by simp [closeFold_fst closeResult rest]

/-- Reading the appended last element of a list. -/
theorem getD_concat (x : Option Nat) : ∀ (rest : List (Option Nat)),
    (rest ++ [x]).getD rest.length none = x
  | [] => rfl
  | _ :: rest => by
      simpa using getD_concat x rest

/-- C3: the divide instruction converts both operands with ToFloat and then
evaluates the IEEE-754 special-case table before the generic float
division: the result is NaN when either operand is NaN, when both operands
are infinite, and when both are zero; one and minus one divided by zero
give the signed infinities, zero divided by zero gives NaN, negative zero
divided by one gives negative zero; and the signed infinity and zero
results follow the standard sign-of-quotient rules, positive exactly when
the operand sign bits agree. -/
theorem c3_div_special_cases (strToNum : List Nat → GoFloat) (lv rv : Value) :
    divExec strToNum lv rv
      = floatToValue (divFloat (toFloat strToNum lv) (toFloat strToNum rv)) ∧
    (∀ r, divFloat .nan r = .nan) ∧
    (∀ l, divFloat l .nan = .nan) ∧
    (∀ s t, divFloat (.inf s) (.inf t) = .nan) ∧
    (∀ s t, divFloat (.fin s 0) (.fin t 0) = .nan) ∧
    (∀ s t m, divFloat (.inf s) (.fin t m) = .inf (xor s t)) ∧
    (∀ s t m, divFloat (.fin s m) (.inf t) = .fin (xor s t) 0) ∧
    (∀ s t m, m ≠ 0 → divFloat (.fin s m) (.fin t 0) = .inf (xor s t)) ∧
    divExec strToNum (.vInt 1) (.vInt 0) = positiveInf ∧
    divExec strToNum (.vInt (-1)) (.vInt 0) = negativeInf ∧
    divExec strToNum (.vInt 0) (.vInt 0) = nanValue ∧
    divExec strToNum negativeZero (.vInt 1) = negativeZero := by
  refine ⟨rfl, ?_, ?_, ?_, ?_, ?_, ?_, ?_, rfl, rfl, rfl, ?_⟩
  · intro r
    cases r <;> simp [divFloat, GoFloat.isNaN]
  · intro l
    cases l <;> simp [divFloat, GoFloat.isNaN, fdiv]
  · intro s t
    cases s <;> cases t <;> decide
  · intro s t
    cases s <;> cases t <;> decide
  · intro s t m
    cases s <;> cases t <;>
      simp [divFloat, GoFloat.isNaN, GoFloat.isInf, GoFloat.eqZero,
        GoFloat.signbit, GoFloat.posInf, GoFloat.negInf]
  · intro s t m
    cases s <;> cases t <;>
      simp [divFloat, GoFloat.isNaN, GoFloat.isInf, GoFloat.eqZero,
        GoFloat.signbit, GoFloat.posZero, GoFloat.negZero]
  · intro s t m hm
    cases s <;> cases t <;>
      simp [divFloat, GoFloat.isNaN, GoFloat.isInf, GoFloat.eqZero,
        GoFloat.signbit, GoFloat.posInf, GoFloat.negInf, hm]
  · show floatToValue (divFloat (GoFloat.fin true 0) (GoFloat.ofInt 1)) = negativeZero
    simp [divFloat, fdiv, GoFloat.ofInt, GoFloat.isNaN, GoFloat.isInf, GoFloat.eqZero,
      GoFloat.signbit, floatToValue, negativeZero, GoFloat.negZero]

/-- Witness for C3 at concrete inputs: positive infinity divided by a
negative finite value gives negative infinity via the special-case table. -/
theorem c3_div_special_cases_witness :
    ((3 : ℚ) ≠ 0) ∧
    divFloat (.fin true 3) (.fin false 0) = .inf true ∧
    divExec (fun _ => .nan) (.vInt 1) (.vInt 0) = positiveInf :=
  ⟨by decide,
   by
     have h := (c3_div_special_cases (fun _ => .nan) (.vInt 1) (.vInt 0)).2.2.2.2.2.2.2.1
     exact h true false 3 (by decide),
   (c3_div_special_cases (fun _ => .nan) (.vInt 1) (.vInt 0)).2.2.2.2.2.2.2.2.1⟩

/-- C4: the multiply instruction yields negative zero for the edge products
0 * -1 and -1 * 0 — a value equal to zero, carrying a negative sign bit,
and distinguishable from the result of 1 * 0 — and its integer fast path
validates the wrapped product by the reverse-division check, promoting the
result to the float multiplication when the check fails (overflow) and
keeping the integer result when it passes. -/
theorem c4_mul_negzero_overflow (strToNum : List Nat → GoFloat) :
    mulExec strToNum (.vInt 0) (.vInt (-1)) = negativeZero ∧
    mulExec strToNum (.vInt (-1)) (.vInt 0) = negativeZero ∧
    mulExec strToNum (.vInt 1) (.vInt 0) = .vInt 0 ∧
    (Value.vInt 0) ≠ negativeZero ∧
    (toFloat strToNum negativeZero).eqZero = true ∧
    (toFloat strToNum negativeZero).signbit = true ∧
    (toFloat strToNum (.vInt 0)).signbit = false ∧
    (∀ l r : Int, l ≠ 0 → r ≠ 0 → ¬((l = 0 ∧ r = -1) ∨ (l = -1 ∧ r = 0)) →
        goDiv64 (wrap64 (l * r)) l ≠ r →
        mulExec strToNum (.vInt64 l) (.vInt64 r)
          = floatToValue (GoFloat.fmul (GoFloat.ofInt l) (GoFloat.ofInt r))) ∧
    (∀ l r : Int, ¬((l = 0 ∧ r = -1) ∨ (l = -1 ∧ r = 0)) →
        goDiv64 (wrap64 (l * r)) l = r →
        mulExec strToNum (.vInt64 l) (.vInt64 r) = intToValue (wrap64 (l * r))) := by
  refine ⟨rfl, rfl, rfl, by decide, rfl, rfl, rfl, ?_, ?_⟩
  · intro l r h1 h2 h3 h4
    show mulExec strToNum (.vInt64 l) (.vInt64 r) = _
    unfold mulExec
    simp only [assertInt64, toNumber]
    rw [if_neg h3, if_neg]
    · simp [toFloat]
    · push_neg
      exact ⟨h1, h2, h4⟩
  · intro l r h3 h4
    unfold mulExec
    simp only [assertInt64, toNumber]
    rw [if_neg h3, if_pos]
    right; right; exact h4

/-- Witness for C4 at concrete inputs: the product of 2 to the 62nd and 4
overflows int64, the wrapped product is 0, the reverse division gives 0
rather than 4, and the instruction promotes to the float product. -/
theorem c4_mul_negzero_overflow_witness :
    ((2 : Int) ^ 62 ≠ 0) ∧ ((4 : Int) ≠ 0) ∧
    ¬(((2 : Int) ^ 62 = 0 ∧ (4 : Int) = -1) ∨ ((2 : Int) ^ 62 = -1 ∧ (4 : Int) = 0)) ∧
    goDiv64 (wrap64 ((2 : Int) ^ 62 * 4)) ((2 : Int) ^ 62) ≠ 4 ∧
    mulExec (fun _ => .nan) (.vInt64 ((2 : Int) ^ 62)) (.vInt64 4)
      = floatToValue (GoFloat.fmul (GoFloat.ofInt ((2 : Int) ^ 62)) (GoFloat.ofInt 4)) :=
  ⟨by decide, by decide, by decide, by decide,
   (c4_mul_negzero_overflow (fun _ => .nan)).2.2.2.2.2.2.2.1 (2 ^ 62) 4
     (by decide) (by decide) (by decide) (by decide)⟩

/-- C6: the relational instructions compare string pairs lexicographically
and same-width integer pairs directly, and compare every other pair as
floats; a NaN operand makes cmp produce the incomparable result, which the
instructions consume with operator-specific polarity so that less-than,
less-than-or-equal, greater-than and greater-than-or-equal all come out
false on a NaN operand — hence less-than and not-less-than are not simple
negations of each other when NaN is involved. -/
theorem c6_relational_cmp (strToNum : List Nat → GoFloat) :
    (∀ xs ys, ltExec strToNum (.vStr xs) (.vStr ys) = strLt xs ys) ∧
    (∀ a b : Int, ltExec strToNum (.vInt a) (.vInt b) = decide (a < b)) ∧
    (∀ a b : Int, ltExec strToNum (.vInt64 a) (.vInt64 b) = decide (a < b)) ∧
    (∀ l r : GoFloat, l.isNaN = false → r.isNaN = false →
        ltExec strToNum (.vFloat l) (.vFloat r) = GoFloat.flt l r) ∧
    (∀ v, ltExec strToNum (.vFloat .nan) v = false) ∧
    (∀ v, ltExec strToNum v (.vFloat .nan) = false) ∧
    (∀ v, lteExec strToNum (.vFloat .nan) v = false) ∧
    (∀ v, lteExec strToNum v (.vFloat .nan) = false) ∧
    (∀ v, gtExec strToNum (.vFloat .nan) v = false) ∧
    (∀ v, gteExec strToNum (.vFloat .nan) v = false) := by
  refine ⟨?_, ?_, ?_, ?_, ?_, ?_, ?_, ?_, ?_, ?_⟩
  · intro xs ys
    cases h : strLt xs ys <;> simp [ltExec, cmp, CmpResult.ofBool, h]
  · intro a b
    by_cases h : a < b <;> simp [ltExec, cmp, CmpResult.ofBool, h]
  · intro a b
    by_cases h : a < b <;> simp [ltExec, cmp, CmpResult.ofBool, h]
  · intro l r hl hr
    cases h : GoFloat.flt l r <;>
      simp [ltExec, cmp, CmpResult.ofBool, toFloat, hl, hr, h]
  · intro v
    cases v <;> simp [ltExec, cmp, CmpResult.ofBool, toFloat, GoFloat.isNaN]
  · intro v
    cases v <;> simp [ltExec, cmp, CmpResult.ofBool, toFloat, GoFloat.isNaN]
  · intro v
    cases v <;> simp [lteExec, cmp, CmpResult.ofBool, toFloat, GoFloat.isNaN]
  · intro v
    cases v <;> simp [lteExec, cmp, CmpResult.ofBool, toFloat, GoFloat.isNaN]
  · intro v
    cases v <;> simp [gtExec, cmp, CmpResult.ofBool, toFloat, GoFloat.isNaN]
  · intro v
    cases v <;> simp [gteExec, cmp, CmpResult.ofBool, toFloat, GoFloat.isNaN]

/-- Witness for C6 at concrete inputs: NaN compared with 0 is false under
both less-than and less-than-or-equal, and a non-NaN float pair follows the
generic float comparison. -/
theorem c6_relational_cmp_witness :
    ltExec (fun _ => .nan) (.vFloat .nan) (.vInt 0) = false ∧
    lteExec (fun _ => .nan) (.vFloat .nan) (.vInt 0) = false ∧
    (GoFloat.fin false 1).isNaN = false ∧
    ltExec (fun _ => .nan) (.vFloat (.fin false 1)) (.vFloat (.fin false 2))
      = GoFloat.flt (.fin false 1) (.fin false 2) :=
  ⟨(c6_relational_cmp (fun _ => .nan)).2.2.2.2.1 (.vInt 0),
   (c6_relational_cmp (fun _ => .nan)).2.2.2.2.2.2.1 (.vInt 0),
   by decide,
   (c6_relational_cmp (fun _ => .nan)).2.2.2.1 (.fin false 1) (.fin false 2)
     (by decide) (by decide)⟩

/-- C2: the frame save checks the configured maximum before touching the
frame array, so with a nonzero configured maximum a save attempted when one
more frame would reach or pass the maximum — in particular when the stack
is already at the configured threshold — raises the range error kind for
call-stack exhaustion and leaves the frame array and every register
untouched; below the threshold exactly one frame holding the saved context
is appended. The outcome is a pure function of the frame count and the
configured maximum, hence deterministic at the exact threshold on every
run. -/
theorem c2_pushCtx_threshold (vm : VmRegs) :
    (vm.maxCallStackSize ≠ 0 →
        (vm.callStack.length : Int) + 1 ≥ vm.maxCallStackSize →
        pushCtx vm = (vm, some (.rangeError .maxCallStack))) ∧
    (vm.maxCallStackSize ≠ 0 →
        (vm.callStack.length : Int) + 1 < vm.maxCallStackSize →
        pushCtx vm = ({ vm with callStack := vm.callStack ++ [saveCtx vm] }, none)) ∧
    ((pushCtx vm).2.isSome ↔
        vm.maxCallStackSize ≠ 0 ∧
          (vm.callStack.length : Int) + 1 ≥ vm.maxCallStackSize) := by
  by_cases h : vm.maxCallStackSize ≠ 0 ∧
      (vm.callStack.length : Int) + 1 ≥ vm.maxCallStackSize
  · refine ⟨fun _ _ => ?_, fun h1 h2 => absurd h.2 (not_le.mpr h2), ?_⟩
    · simp [pushCtx, h]
    · simp [pushCtx, h]
  · refine ⟨fun h1 h2 => absurd ⟨h1, h2⟩ h, fun h1 h2 => ?_, ?_⟩
    · simp [pushCtx, h]
    · simp [pushCtx, h]

/-- Witness for C2 at a concrete state: a VM configured with maximum 2 and
one live frame raises the range error on the next save and its frame array
is unchanged by the failed save. -/
theorem c2_pushCtx_threshold_witness :
    ((⟨none, "", 0, none, none, 0, -1, 0,
        [⟨none, "", 0, none, none, 0, -1, 0⟩], 2⟩ : VmRegs).maxCallStackSize ≠ 0) ∧
    (((⟨none, "", 0, none, none, 0, -1, 0,
        [⟨none, "", 0, none, none, 0, -1, 0⟩], 2⟩ : VmRegs).callStack.length : Int) + 1 ≥ 2) ∧
    pushCtx ⟨none, "", 0, none, none, 0, -1, 0,
        [⟨none, "", 0, none, none, 0, -1, 0⟩], 2⟩
      = (⟨none, "", 0, none, none, 0, -1, 0,
          [⟨none, "", 0, none, none, 0, -1, 0⟩], 2⟩,
         some (.rangeError .maxCallStack)) :=
  ⟨by decide, by decide,
   (c2_pushCtx_threshold _).1 (by decide) (by decide)⟩

/-- C10: createBinding and createLexBinding are idempotent per name — when
the name is already present in the name map, both operations return the
scope record unchanged: no duplicate slot is appended to the values array
and no existing slot value or kind bits are modified. -/
theorem c10_createBinding_idempotent (s : Stash) (name : String)
    (deletable isConst : Bool) (i : Nat)
    (h : lookupName s.names name = some i) :
    s.createBinding name deletable = s ∧ s.createLexBinding name isConst = s := by
  unfold Stash.createBinding Stash.createLexBinding
  rw [h]
  exact ⟨rfl, rfl⟩

/-- Witness for C10 at a concrete scope record holding one var binding. -/
theorem c10_createBinding_idempotent_witness :
    lookupName [("x", Nat.lor 0 maskVar)] "x" = some (Nat.lor 0 maskVar) ∧
    Stash.createBinding ⟨[some .undef], [("x", Nat.lor 0 maskVar)], none⟩ "x" true
      = ⟨[some .undef], [("x", Nat.lor 0 maskVar)], none⟩ ∧
    Stash.createLexBinding ⟨[some .undef], [("x", Nat.lor 0 maskVar)], none⟩ "x" true
      = ⟨[some .undef], [("x", Nat.lor 0 maskVar)], none⟩ :=
  ⟨by decide,
   (c10_createBinding_idempotent ⟨[some .undef], [("x", Nat.lor 0 maskVar)], none⟩
      "x" true true (Nat.lor 0 maskVar) (by decide)).1,
   (c10_createBinding_idempotent ⟨[some .undef], [("x", Nat.lor 0 maskVar)], none⟩
      "x" true true (Nat.lor 0 maskVar) (by decide)).2⟩

/-- C1: with a configured finally offset the try instruction enters the
finally region exactly once no matter how the try and catch portion
completed — normal completion, a caught throw (with the catch body running
to its end or itself throwing), or an uncaught throw — and when the finally
body exits through an early control transfer, so that its run does not stop
on the retFinally marker, any exception pending from the try and catch
portion is dropped: the instruction returns normally at the transfer target
and nothing propagates. -/
theorem c1_try_finally (catchOffset finallyOffset o : Int) (ph : TryPhases)
    (hfin : finallyOffset > 0)
    (htry : ∀ e, ph.tryBody ≠ .uncatchable e)
    (hcatch : ∀ e, ph.catchBody ≠ .uncatchable e) :
    (tryExec catchOffset finallyOffset o ph).finallyEntered = 1 ∧
    (∀ pf, ph.finallyBody = .halted pf → ph.retFinallyAt pf = false →
        (tryExec catchOffset finallyOffset o ph).outcome = .ok pf) := by
  cases htb : ph.tryBody with
  | uncatchable e => exact absurd htb (htry e)
  | completed pc =>
      cases hfb : ph.finallyBody with
      | raised e =>
          refine ⟨?_, ?_⟩
          · simp [tryExec, htb, runTryAt, hfb, hfin]
          · intro pf hpf hr
            cases hpf
      | halted pf0 =>
          cases hrf : ph.retFinallyAt pf0 with
          | true =>
              refine ⟨?_, ?_⟩
              · simp [tryExec, htb, runTryAt, hfb, hfin, hrf]
              · intro pf hpf hr
                injection hpf with h
                subst h
                simp [hrf] at hr
          | false =>
              refine ⟨?_, ?_⟩
              · simp [tryExec, htb, runTryAt, hfb, hfin, hrf]
              · intro pf hpf hr
                injection hpf with h
                subst h
                simp [tryExec, htb, runTryAt, hfb, hfin, hrf]
  | exception e =>
      by_cases hco : catchOffset > 0
      · cases hcb : ph.catchBody with
        | uncatchable e2 => exact absurd hcb (hcatch e2)
        | completed pc2 =>
            cases hfb : ph.finallyBody with
            | raised e2 =>
                refine ⟨?_, ?_⟩
                · simp [tryExec, htb, runTryAt, hfb, hfin, hco, hcb]
                · intro pf hpf hr
                  cases hpf
            | halted pf0 =>
                cases hrf : ph.retFinallyAt pf0 with
                | true =>
                    refine ⟨?_, ?_⟩
                    · simp [tryExec, htb, runTryAt, hfb, hfin, hco, hcb, hrf]
                    · intro pf hpf hr
                      injection hpf with h
                      subst h
                      simp [hrf] at hr
                | false =>
                    refine ⟨?_, ?_⟩
                    · simp [tryExec, htb, runTryAt, hfb, hfin, hco, hcb, hrf]
                    · intro pf hpf hr
                      injection hpf with h
                      subst h
                      simp [tryExec, htb, runTryAt, hfb, hfin, hco, hcb, hrf]
        | exception e2 =>
            cases hfb : ph.finallyBody with
            | raised e3 =>
                refine ⟨?_, ?_⟩
                · simp [tryExec, htb, runTryAt, hfb, hfin, hco, hcb]
                · intro pf hpf hr
                  cases hpf
            | halted pf0 =>
                cases hrf : ph.retFinallyAt pf0 with
                | true =>
                    refine ⟨?_, ?_⟩
                    · simp [tryExec, htb, runTryAt, hfb, hfin, hco, hcb, hrf]
                    · intro pf hpf hr
                      injection hpf with h
                      subst h
                      simp [hrf] at hr
                | false =>
                    refine ⟨?_, ?_⟩
                    · simp [tryExec, htb, runTryAt, hfb, hfin, hco, hcb, hrf]
                    · intro pf hpf hr
                      injection hpf with h
                      subst h
                      simp [tryExec, htb, runTryAt, hfb, hfin, hco, hcb, hrf]
      · cases hfb : ph.finallyBody with
        | raised e2 =>
            refine ⟨?_, ?_⟩
            · simp [tryExec, htb, runTryAt, hfb, hfin, hco]
            · intro pf hpf hr
              cases hpf
        | halted pf0 =>
            cases hrf : ph.retFinallyAt pf0 with
            | true =>
                refine ⟨?_, ?_⟩
                · simp [tryExec, htb, runTryAt, hfb, hfin, hco, hrf]
                · intro pf hpf hr
                  injection hpf with h
                  subst h
                  simp [hrf] at hr
            | false =>
                refine ⟨?_, ?_⟩
                · simp [tryExec, htb, runTryAt, hfb, hfin, hco, hrf]
                · intro pf hpf hr
                  injection hpf with h
                  subst h
                  simp [tryExec, htb, runTryAt, hfb, hfin, hco, hrf]

/-- Witness for C1 at a concrete region: the try body throws, there is no
catch offset, the finally body exits early (its halt point is not the
retFinally marker), so finally runs exactly once and the pending exception
is discarded: the instruction returns normally at the transfer target. -/
theorem c1_try_finally_witness :
    ((2 : Int) > 0) ∧
    (tryExec 0 2 10 ⟨.exception 7, .completed 0, .halted 99, fun _ => false⟩).finallyEntered
      = 1 ∧
    (tryExec 0 2 10 ⟨.exception 7, .completed 0, .halted 99, fun _ => false⟩).outcome
      = .ok 99 :=
  ⟨by decide,
   (c1_try_finally 0 2 10 ⟨.exception 7, .completed 0, .halted 99, fun _ => false⟩
      (by decide) (fun e h => TryOutcome.noConfusion h)
      (fun e h => TryOutcome.noConfusion h)).1,
   (c1_try_finally 0 2 10 ⟨.exception 7, .completed 0, .halted 99, fun _ => false⟩
      (by decide) (fun e h => TryOutcome.noConfusion h)
      (fun e h => TryOutcome.noConfusion h)).2 99 rfl rfl⟩

/-- C5 counterexample: the claim fails for the const kind on the write
side. A const binding created by createLexBinding whose slot still holds
the uninitialized sentinel resolves to a strict const reference, and
writing through it raises the assignment-to-constant error, not the
access-before-initialization error the claim requires. -/
theorem c5_counterexample :
    Stash.createLexBinding ⟨[], [], none⟩ "x" true
      = ⟨[none], [("x", Nat.lor 0 (Nat.lor maskConst maskStrict))], none⟩ ∧
    Stash.getRefByName (fun _ _ => false)
        ⟨[none], [("x", Nat.lor 0 (Nat.lor maskConst maskStrict))], none⟩ "x" false
      = some (.stashRefConst 0 true) ∧
    stashRefConstSet true [none] 0 (.vInt 1) = .error .assignToConst ∧
    JSErr.assignToConst ≠ JSErr.accessBeforeInit := by decide

/-- C5 amended: for a resolved binding whose slot holds the uninitialized
sentinel, reading through the lexical reference raises the
access-before-initialization error, as does writing through the let
(non-const) reference; writing through a resolved const reference instead
raises the assignment-to-constant error when strict (the strictness the VM
always attaches to const bindings it creates) and silently no-ops
otherwise; a resolved-name read through getByName of an uninitialized
lexical slot raises access-before-initialization as well; none of these
paths raises the unresolved-reference kind, and the read never produces a
value, in particular never undefined. -/
theorem c5_uninit_lex_access (vals : List (Option Value)) (idx : Nat) (v : Value)
    (s : Stash) (name : String) (i : Nat)
    (objLookup : Nat → String → Option Value)
    (hnil : vals.getD idx none = none)
    (hobj : s.obj = none)
    (hname : lookupName s.names name = some i)
    (hlex : Nat.land i maskVar = 0)
    (hslot : s.values.getD (andNot32 i maskTyp) none = none) :
    stashRefLexGet vals idx = .error .accessBeforeInit ∧
    stashRefLexSet vals idx v = .error .accessBeforeInit ∧
    stashRefConstSet true vals idx v = .error .assignToConst ∧
    stashRefConstSet false vals idx v = .ok vals ∧
    s.getByName objLookup name = .error .accessBeforeInit ∧
    (∀ m, (JSErr.accessBeforeInit : JSErr) ≠ .referenceError m) ∧
    (∀ w, stashRefLexGet vals idx ≠ .ok w) := by
  refine ⟨?_, ?_, rfl, rfl, ?_, ?_, ?_⟩
  · unfold stashRefLexGet
    rw [hnil]
  · unfold stashRefLexSet
    rw [hnil]
  · rw [List.getD_eq_getElem?_getD] at hslot
    simp [Stash.getByName, hobj, hname, hslot, hlex]
  · intro m h
    cases h
  · intro w h
    unfold stashRefLexGet at h
    rw [hnil] at h
    cases h

/-- Witness for C5 at a concrete uninitialized let slot. -/
theorem c5_uninit_lex_access_witness :
    (([none] : List (Option Value)).getD 0 none = none) ∧
    lookupName [("y", 0)] "y" = some 0 ∧
    Nat.land 0 maskVar = 0 ∧
    stashRefLexGet [none] 0 = .error .accessBeforeInit ∧
    stashRefLexSet [none] 0 (.vInt 5) = .error .accessBeforeInit ∧
    Stash.getByName (fun _ _ => none) ⟨[none], [("y", 0)], none⟩ "y"
      = .error .accessBeforeInit :=
  ⟨by decide, by decide, by decide,
   (c5_uninit_lex_access [none] 0 (.vInt 5) ⟨[none], [("y", 0)], none⟩ "y" 0
      (fun _ _ => none) (by decide) rfl (by decide) (by decide) (by decide)).1,
   (c5_uninit_lex_access [none] 0 (.vInt 5) ⟨[none], [("y", 0)], none⟩ "y" 0
      (fun _ _ => none) (by decide) rfl (by decide) (by decide) (by decide)).2.1,
   (c5_uninit_lex_access [none] 0 (.vInt 5) ⟨[none], [("y", 0)], none⟩ "y" 0
      (fun _ _ => none) (by decide) rfl (by decide) (by decide) (by decide)).2.2.2.2.1⟩

/-- C7 counterexample: the claim fails for a callee with no object form. A
callee slot holding a valueUnresolved is not the built-in eval binding, yet
it is not dispatched as an ordinary function call: callEval raises its own
type error at the guard, while the ordinary call instruction would raise
the unresolved-reference error in toCallee — observably different
outcomes. -/
theorem c7_counterexample :
    callEvalM 0 (.obj 1) (fun _ _ _ _ => .undef) (fun st _ => .ok st)
        ⟨[.undef, .unresolved "eval"], 2, -1⟩ 0 false
      = .error (.typeError .evalNotFunction) ∧
    callExecCalleeStep ⟨[.undef, .unresolved "eval"], 2, -1⟩ 0
      = .error (.referenceError (.notDefined "eval")) ∧
    (JSErr.typeError .evalNotFunction) ≠ .referenceError (.notDefined "eval") := by
  decide

/-- C7 amended: when the callee slot holds the built-in eval object, by
identity, the direct-call fast path applies — a string first argument is
handed to the external eval with the direct flag set (running it in the
caller scope) and with the caller receiver as this, the global object when
there is no current frame receiver, and the result lands in the frame
result slot; a non-string first argument is returned unchanged; zero
arguments produce undefined. An object callee that is not the built-in eval
binding is dispatched as an ordinary function call, while a callee with no
object form raises a type error directly instead of being dispatched. -/
theorem c7_callEval_fast_path (evalObjId : Nat) (globalObj : Value)
    (evalFn : List Nat → Bool → Bool → Value → Value)
    (callDispatch : EvalState → Nat → Except JSErr EvalState)
    (st : EvalState) (n : Nat) (strict : Bool) :
    (∀ id, st.stack.getD (st.sp - n - 1) .undef = .obj id → id ≠ evalObjId →
        callEvalM evalObjId globalObj evalFn callDispatch st n strict
          = callDispatch st n) ∧
    ((∀ id, st.stack.getD (st.sp - n - 1) .undef ≠ .obj id) →
        callEvalM evalObjId globalObj evalFn callDispatch st n strict
          = .error (.typeError .evalNotFunction)) ∧
    (st.stack.getD (st.sp - n - 1) .undef = .obj evalObjId → 0 < n →
        ∀ src, st.stack.getD (st.sp - n) .undef = .vStr src →
          callEvalM evalObjId globalObj evalFn callDispatch st n strict
            = .ok { st with
                stack := st.stack.set (st.sp - n - 2)
                  (evalFn src true strict
                    (if st.sb ≥ 0 then st.stack.getD st.sb.toNat .undef else globalObj)),
                sp := st.sp - (n + 1) }) ∧
    (st.stack.getD (st.sp - n - 1) .undef = .obj evalObjId → 0 < n →
        (∀ src, st.stack.getD (st.sp - n) .undef ≠ .vStr src) →
          callEvalM evalObjId globalObj evalFn callDispatch st n strict
            = .ok { st with
                stack := st.stack.set (st.sp - n - 2)
                  (st.stack.getD (st.sp - n) .undef),
                sp := st.sp - (n + 1) }) ∧
    (st.stack.getD (st.sp - n - 1) .undef = .obj evalObjId → n = 0 →
        callEvalM evalObjId globalObj evalFn callDispatch st n strict
          = .ok { st with
              stack := st.stack.set (st.sp - n - 2) .undef,
              sp := st.sp - (n + 1) }) := by
  refine ⟨?_, ?_, ?_, ?_, ?_⟩
  · intro id hid hne
    rw [List.getD_eq_getElem?_getD] at hid
    simp [callEvalM, hid, hne]
  · intro h
    cases hv : st.stack.getD (st.sp - n - 1) .undef
    case obj id => exact absurd hv (h id)
    all_goals rw [List.getD_eq_getElem?_getD] at hv
    all_goals simp [callEvalM, hv]
  · intro hid hn src hsrc
    rw [List.getD_eq_getElem?_getD] at hid hsrc
    simp [callEvalM, hid, hn, hsrc]
  · intro hid hn hnostr
    cases hsv : st.stack.getD (st.sp - n) .undef
    case vStr s2 => exact absurd hsv (hnostr s2)
    all_goals rw [List.getD_eq_getElem?_getD] at hid hsv
    all_goals simp [callEvalM, hid, hn, hsv]
  · intro hid hn
    subst hn
    rw [List.getD_eq_getElem?_getD] at hid
    simp only [Nat.sub_zero] at hid
    simp [callEvalM, hid]

/-- Witness for C7 at a concrete direct eval call with a string argument:
the external eval is invoked with the direct flag and the global object as
this, and its result replaces the call frame on the stack. -/
theorem c7_callEval_fast_path_witness :
    (([.undef, .obj 4, .vStr [97]] : List Value).getD 1 .undef = .obj 4) ∧
    (([.undef, .obj 4, .vStr [97]] : List Value).getD 2 .undef = .vStr [97]) ∧
    callEvalM 4 (.obj 1) (fun _ _ _ _ => .vInt 42) (fun st _ => .ok st)
        ⟨[.undef, .obj 4, .vStr [97]], 3, -1⟩ 1 false
      = .ok ⟨[.vInt 42, .obj 4, .vStr [97]], 1, -1⟩ :=
  ⟨by decide, by decide, by
    have h := (c7_callEval_fast_path 4 (.obj 1) (fun _ _ _ _ => .vInt 42)
        (fun st _ => .ok st) ⟨[.undef, .obj 4, .vStr [97]], 3, -1⟩ 1 false).2.2.1
      (by decide) (by decide) [97] (by decide)
    simpa using h⟩

/-- C8: evaluation of the construction instruction at the failing input. A
callee object (identity 5) with neither a registered constructor nor a
native-function form is dispatched to no branch: the instruction completes
without raising anything and the callee itself remains in the result slot,
so no type error occurs; the code diverges here from the claim and the
spec, which make such an object non-constructible with a type error. -/
theorem c8_new_neither_no_error :
    newExec
        (fun v => match v with
          | .obj id => .ok id
          | _ => .error (.typeError .valueNotObject))
        (fun _ => ⟨none, none⟩)
        ⟨[.vnull, .obj 5], 2, 0⟩ 0
      = .ok ⟨[.vnull, .obj 5], 2, 0⟩ := by
  decide

/-- C9: the break path (enumPopClose) removes the top iterator record from
the iterator stack and invokes its close exactly once, and the unwind path
(the iterator restore in vm.try, which runs precisely when an abrupt
completion — including an exception — escapes the region) attempts the
close of every record left open above the snapshot exactly once each, in
order; the attempt list does not depend on whether the closes themselves
fail, because each close runs inside a nested try that swallows its
outcome. -/
theorem c9_iterator_close (closeA closeB : Nat → Option ExcId)
    (iterStack rest : List (Option Nat)) (iterLen : Nat) (id : Nat) :
    ((restoreIterStack closeA iterStack iterLen).1.map Prod.fst
        = (iterStack.drop iterLen).filterMap (fun it => it)) ∧
    ((restoreIterStack closeA iterStack iterLen).2 = iterStack.take iterLen) ∧
    (((iterStack.drop iterLen).filterMap (fun it => it)).count id = 1 →
        ((restoreIterStack closeA iterStack iterLen).1.map Prod.fst).count id = 1) ∧
    ((restoreIterStack closeA iterStack iterLen).1.map Prod.fst
        = (restoreIterStack closeB iterStack iterLen).1.map Prod.fst) ∧
    (enumPopClose closeA (rest ++ [some id])
        = ([(id, closeA id)], rest, closeA id)) := by
  have h1 : (restoreIterStack closeA iterStack iterLen).1.map Prod.fst
      = (iterStack.drop iterLen).filterMap (fun it => it) := by
    unfold restoreIterStack
    rw [closeFold_eq closeA (iterStack.drop iterLen) []]
    simpa using closeFold_fst closeA (iterStack.drop iterLen)
  have h1b : (restoreIterStack closeB iterStack iterLen).1.map Prod.fst
      = (iterStack.drop iterLen).filterMap (fun it => it) := by
    unfold restoreIterStack
    rw [closeFold_eq closeB (iterStack.drop iterLen) []]
    simpa using closeFold_fst closeB (iterStack.drop iterLen)
  refine ⟨h1, rfl, ?_, ?_, ?_⟩
  · intro hcount
    rw [h1]
    exact hcount
  · rw [h1, h1b]
  · unfold enumPopClose
    have hlen : (rest ++ [some id]).length - 1 = rest.length := by simp
    rw [hlen, getD_concat]
    simp [List.take_left]

/-- Witness for C9 at a concrete iterator stack with a failing close: the
record open above the snapshot is attempted exactly once on unwind even
though its close fails, and enumPopClose pops and closes the top record
exactly once. -/
theorem c9_iterator_close_witness :
    ((([some 3, none, some 7] : List (Option Nat)).drop 1).filterMap
        (fun it => it)).count 7 = 1 ∧
    ((restoreIterStack (fun _ => some 9) [some 3, none, some 7] 1).1.map
        Prod.fst).count 7 = 1 ∧
    enumPopClose (fun _ => some 9) ([none] ++ [some 5])
      = ([(5, some 9)], [none], some 9) :=
  ⟨by decide,
   (c9_iterator_close (fun _ => some 9) (fun _ => some 9)
      [some 3, none, some 7] [none] 1 7).2.2.1 (by decide),
   (c9_iterator_close (fun _ => some 9) (fun _ => some 9)
      [some 3, none, some 7] [none] 1 5).2.2.2.2⟩

end GojaVM
